import Mathlib

/-!
Verification of the OM1 repository fragment: the configuration
environment-variable interpolator (`src/utils/config_interpolation.py`)
and the GPS coordinate publisher (`src/actions/gps/connector/fabric.py`).

The Python code is shallowly embedded: strings become `List Char`,
the regex-driven substitution pass becomes an executable scanner that
mirrors the backtracking behaviour of the pattern
`\$\{([^}:]+)(?::-(.*?))?\}` used by `re.sub`, configuration trees
become an inductive type, and the publisher's straight-line control
flow (fetch, validate, post, try/except classification) becomes a pure
function from the modelled behaviour of the outside world to a trace of
its observable effects.
-/

/-- The character `\x7b`, written via its code to keep string literals free
of raw braces. -/
def lbrace : Char := '\x7b'

/-- The character `\x7d`. -/
def rbrace : Char := '\x7d'

/-- One character of the regex's `NAME` group: `[^}:]` — any character other
than a closing brace or a colon. -/
def nameChar (c : Char) : Bool := !(c == rbrace) && !(c == ':')

/-- The lazy group `(.*?)\}` of the pattern: consume the shortest run of
characters (each matched by `.`, hence not a newline) up to the first closing
brace; return the run and the remainder after the brace.  Fails when a newline
or the end of input is reached before a closing brace. -/
def lazyDefault : List Char → Option (List Char × List Char)
  | [] => none
  | c :: rest =>
    if c == rbrace then some ([], rest)
    else if c == '\n' then none
    else (lazyDefault rest).map (fun p => (c :: p.1, p.2))

/-- Attempt to match the pattern `\$\{([^}:]+)(?::-(.*?))?\}` at the head of
the input, exactly as Python's regex engine does: the name group is greedy,
the optional default group prefers to be present, and on success the
variable-name characters, the optional default characters, and the remainder
of the input after the match are returned. -/
def tryMatch (cs : List Char) : Option (List Char × Option (List Char) × List Char) :=
  match cs with
  | c0 :: c1 :: rest =>
    if c0 == '$' && c1 == lbrace then
      let name := rest.takeWhile nameChar
      let rest2 := rest.dropWhile nameChar
      if name.isEmpty then none
      else
        match rest2 with
        | c :: rest3 =>
          if c == rbrace then some (name, none, rest3)
          else if c == ':' then
            match rest3 with
            | c2 :: rest4 =>
              if c2 == '-' then
                (lazyDefault rest4).map (fun p => (name, some p.1, p.2))
              else none
            | [] => none
          else none
        | [] => none
    else none
  | _ => none

/-- The replacement computed for one matched placeholder, mirroring the
`replacer` closure: the environment value when the variable is set (even to
the empty string), else the default when one was given (even the empty one),
else the original matched text `$\x7bNAME\x7d`. -/
def resolvePH (env : String → Option String) (name : List Char)
    (dflt : Option (List Char)) : List Char :=
  match env (String.mk name) with
  | some v => v.data
  | none =>
    match dflt with
    | some d => d
    | none => '$' :: lbrace :: (name ++ [rbrace])

/-- Fuel-indexed scanner implementing `re.sub`: at each position try to match
the placeholder pattern; on a match emit the replacement and continue after
the match, otherwise emit one character and continue.  The fuel only serves
to make the recursion structural; `interpChars` instantiates it with the
length of the input, which is always sufficient. -/
def interpAux (env : String → Option String) : Nat → List Char → List Char
  | _, [] => []
  | 0, l => l
  | fuel + 1, c :: cs =>
    match tryMatch (c :: cs) with
    | some (name, dflt, rest) => resolvePH env name dflt ++ interpAux env fuel rest
    | none => c :: interpAux env fuel cs

/-- The substitution pass over one string, as a character-list transform. -/
def interpChars (env : String → Option String) (l : List Char) : List Char :=
  interpAux env l.length l

/-- Embedding of `_interpolate_string`: substitute every placeholder of one
string using the environment lookup `env` (the injected `os.environ.get`). -/
def interpolate_string (env : String → Option String) (s : String) : String :=
  String.mk (interpChars env s.data)

theorem lazyDefault_length {cs d r : List Char}
    (h : lazyDefault cs = some (d, r)) : r.length < cs.length := by
  induction cs generalizing d r with
  | nil => simp [lazyDefault] at h
  | cons c rest ih =>
    simp only [lazyDefault] at h
    split at h
    · simp at h
      obtain ⟨h1, h2⟩ := h
      subst h2
      simp
    · split at h
      · simp at h
      · match he : lazyDefault rest with
        | none => rw [he] at h; simp at h
        | some (d', r') =>
          rw [he] at h
          simp at h
          obtain ⟨h1, h2⟩ := h
          subst h2
          have hr := ih he
          simp
          omega

theorem dropWhile_length_le (p : Char → Bool) :
    ∀ l : List Char, (l.dropWhile p).length ≤ l.length := by
  intro l
  induction l with
  | nil => simp [List.dropWhile]
  | cons c rest ih =>
    simp only [List.dropWhile]
    split
    · simp
      omega
    · simp

theorem tryMatch_rest_length {cs name : List Char} {dflt : Option (List Char)}
    {rest : List Char} (h : tryMatch cs = some (name, dflt, rest)) :
    rest.length < cs.length := by
  match cs with
  | [] => simp [tryMatch] at h
  | [c] => simp [tryMatch] at h
  | c0 :: c1 :: tl =>
    by_cases h01 : (c0 == '$' && c1 == lbrace) = true
    case neg => simp [tryMatch, h01] at h
    by_cases hne : (tl.takeWhile nameChar).isEmpty = true
    case pos => simp [tryMatch, h01, hne] at h
    have hdw := dropWhile_length_le nameChar tl
    match hr2 : tl.dropWhile nameChar with
    | [] => simp [tryMatch, h01, hne, hr2] at h
    | c :: rest3 =>
      rw [hr2] at hdw
      by_cases hcr : (c == rbrace) = true
      · simp [tryMatch, h01, hne, hr2, hcr] at h
        obtain ⟨h1, h2, h3⟩ := h
        subst h3
        simp at hdw
        simp
        omega
      · by_cases hcc : (c == ':') = true
        · match rest3 with
          | [] => simp [tryMatch, h01, hne, hr2, hcr, hcc] at h
          | c2 :: rest4 =>
            by_cases hcd : (c2 == '-') = true
            · match hl : lazyDefault rest4 with
              | none => simp [tryMatch, h01, hne, hr2, hcr, hcc, hcd, hl] at h
              | some (d', r') =>
                simp [tryMatch, h01, hne, hr2, hcr, hcc, hcd, hl] at h
                obtain ⟨h1, h2, h3⟩ := h
                subst h3
                have hll := lazyDefault_length hl
                simp at hdw
                simp
                omega
            · simp [tryMatch, h01, hne, hr2, hcr, hcc, hcd] at h
        · simp [tryMatch, h01, hne, hr2, hcr, hcc] at h

theorem interpAux_nil (env : String → Option String) (f : Nat) :
    interpAux env f [] = [] := by
  cases f <;> rfl

theorem interpAux_congr (env : String → Option String) :
    ∀ f g l, l.length ≤ f → l.length ≤ g → interpAux env f l = interpAux env g l := by
  intro f
  induction f with
  | zero =>
    intro g l hf _
    have : l = [] := List.length_eq_zero.mp (Nat.le_zero.mp hf)
    subst this
    rw [interpAux_nil, interpAux_nil]
  | succ f ih =>
    intro g l hf hg
    match l with
    | [] => rw [interpAux_nil, interpAux_nil]
    | c :: cs =>
      match g with
      | 0 => simp at hg
      | g + 1 =>
        match hm : tryMatch (c :: cs) with
        | some (name, dflt, rest) =>
          have hlt := tryMatch_rest_length hm
          simp at hf hg hlt
          have h1 : interpAux env f rest = interpAux env g rest :=
            ih g rest (by omega) (by omega)
          simp only [interpAux, hm]
          rw [h1]
        | none =>
          simp at hf hg
          have h1 : interpAux env f cs = interpAux env g cs :=
            ih g cs (by omega) (by omega)
          simp only [interpAux, hm]
          rw [h1]

theorem interpChars_nil (env : String → Option String) : interpChars env [] = [] := rfl

theorem interpChars_cons_match {c : Char} {cs name rest : List Char}
    {dflt : Option (List Char)} (env : String → Option String)
    (h : tryMatch (c :: cs) = some (name, dflt, rest)) :
    interpChars env (c :: cs) = resolvePH env name dflt ++ interpChars env rest := by
  have hlt := tryMatch_rest_length h
  simp only [interpChars, List.length_cons, interpAux, h]
  simp at hlt
  rw [interpAux_congr env cs.length rest.length rest (by omega) (by omega)]

theorem interpChars_cons_nomatch {c : Char} {cs : List Char}
    (env : String → Option String) (h : tryMatch (c :: cs) = none) :
    interpChars env (c :: cs) = c :: interpChars env cs := by
  simp only [interpChars, List.length_cons, interpAux, h]

/-- A configuration value as handled by `interpolate_env_vars`: a string, a
mapping (Python `dict`, modelled as an association list of string keys), an
ordered sequence (Python `list`), or an opaque scalar (number, boolean,
null) that the function passes through unchanged. -/
inductive Config where
  | str : String → Config
  | arr : List Config → Config
  | obj : List (String × Config) → Config
  | num : Int → Config
  | bool : Bool → Config
  | null : Config

mutual

/-- Number of nodes of a configuration tree; used only as recursion fuel. -/
def configSize : Config → Nat
  | Config.str _ => 1
  | Config.num _ => 1
  | Config.bool _ => 1
  | Config.null => 1
  | Config.arr xs => 1 + configSizeList xs
  | Config.obj kvs => 1 + configSizeKVs kvs

/-- Total size of a list of configuration trees. -/
def configSizeList : List Config → Nat
  | [] => 0
  | x :: xs => configSize x + configSizeList xs

/-- Total size of the values of an association list. -/
def configSizeKVs : List (String × Config) → Nat
  | [] => 0
  | kv :: kvs => configSize kv.2 + configSizeKVs kvs

end

/-- Fuel-indexed recursive interpolation over a configuration tree, mirroring
the `isinstance` dispatch of `interpolate_env_vars`: strings are passed to the
string interpolator, dict values and list elements are interpolated
recursively (keys untouched), everything else is returned unchanged.  The
fuel only makes the recursion structural; it is instantiated with
`configSize` of the tree, which is always sufficient. -/
def interpConfigAux (env : String → Option String) : Nat → Config → Config
  | 0, c => c
  | _ + 1, Config.str s => Config.str (interpolate_string env s)
  | f + 1, Config.arr xs => Config.arr (xs.map (interpConfigAux env f))
  | f + 1, Config.obj kvs =>
    Config.obj (kvs.map (fun kv => (kv.1, interpConfigAux env f kv.2)))
  | _ + 1, Config.num n => Config.num n
  | _ + 1, Config.bool b => Config.bool b
  | _ + 1, Config.null => Config.null

/-- Embedding of `interpolate_env_vars`: recursively interpolate environment
variables in a configuration value. -/
def interpolate_env_vars (env : String → Option String) (c : Config) : Config :=
  interpConfigAux env (configSize c) c

theorem configSize_pos (c : Config) : 0 < configSize c := by
  cases c <;> simp [configSize]

theorem configSize_le_of_mem_configs {x : Config} {xs : List Config}
    (h : x ∈ xs) : configSize x ≤ configSizeList xs := by
  induction xs with
  | nil => simp at h
  | cons a l ih =>
    rcases List.mem_cons.mp h with h1 | h2
    · subst h1
      simp [configSizeList]
    · have := ih h2
      simp [configSizeList]
      omega

theorem configSize_le_of_mem_kvs {kv : String × Config}
    {kvs : List (String × Config)} (h : kv ∈ kvs) :
    configSize kv.2 ≤ configSizeKVs kvs := by
  induction kvs with
  | nil => simp at h
  | cons a l ih =>
    rcases List.mem_cons.mp h with h1 | h2
    · subst h1
      simp [configSizeKVs]
    · have := ih h2
      simp [configSizeKVs]
      omega

theorem map_congr_mem {α β : Type} {l : List α} {f g : α → β}
    (h : ∀ a ∈ l, f a = g a) : l.map f = l.map g := by
  induction l with
  | nil => rfl
  | cons a t ih =>
    simp only [List.map_cons]
    rw [h a (List.mem_cons_self a t), ih (fun x hx => h x (List.mem_cons_of_mem a hx))]

theorem interpConfigAux_congr (env : String → Option String) :
    ∀ f g c, configSize c ≤ f → configSize c ≤ g →
      interpConfigAux env f c = interpConfigAux env g c := by
  intro f
  induction f with
  | zero =>
    intro g c hf _
    have := configSize_pos c
    omega
  | succ f ih =>
    intro g c hf hg
    match g with
    | 0 => have := configSize_pos c; omega
    | g + 1 =>
      cases c with
      | str s => rfl
      | num n => rfl
      | bool b => rfl
      | null => rfl
      | arr xs =>
        simp only [interpConfigAux]
        refine congrArg Config.arr (map_congr_mem (fun x hx => ?_))
        have h1 := configSize_le_of_mem_configs hx
        simp only [configSize] at hf hg
        exact ih g x (by omega) (by omega)
      | obj kvs =>
        simp only [interpConfigAux]
        refine congrArg Config.obj (map_congr_mem (fun kv hkv => ?_))
        have h1 := configSize_le_of_mem_kvs hkv
        simp only [configSize] at hf hg
        exact congrArg (fun z => (kv.1, z)) (ih g kv.2 (by omega) (by omega))

theorem interp_config_str (env : String → Option String) (s : String) :
    interpolate_env_vars env (Config.str s) = Config.str (interpolate_string env s) := by
  unfold interpolate_env_vars
  rw [show configSize (Config.str s) = 0 + 1 by simp [configSize]]
  rfl

theorem interp_config_arr (env : String → Option String) (xs : List Config) :
    interpolate_env_vars env (Config.arr xs) =
      Config.arr (xs.map (interpolate_env_vars env)) := by
  unfold interpolate_env_vars
  rw [show configSize (Config.arr xs) = configSizeList xs + 1 by
    simp [configSize]; omega]
  simp only [interpConfigAux]
  refine congrArg Config.arr (map_congr_mem (fun x hx => ?_))
  have h1 := configSize_le_of_mem_configs hx
  exact interpConfigAux_congr env (configSizeList xs) (configSize x) x h1 (by omega)

theorem interp_config_obj (env : String → Option String)
    (kvs : List (String × Config)) :
    interpolate_env_vars env (Config.obj kvs) =
      Config.obj (kvs.map (fun kv => (kv.1, interpolate_env_vars env kv.2))) := by
  unfold interpolate_env_vars
  rw [show configSize (Config.obj kvs) = configSizeKVs kvs + 1 by
    simp [configSize]; omega]
  simp only [interpConfigAux]
  refine congrArg Config.obj (map_congr_mem (fun kv hkv => ?_))
  have h1 := configSize_le_of_mem_kvs hkv
  exact congrArg (fun z => (kv.1, z))
    (interpConfigAux_congr env (configSizeKVs kvs) (configSize kv.2) kv.2 h1 (by omega))

theorem interp_config_num (env : String → Option String) (n : Int) :
    interpolate_env_vars env (Config.num n) = Config.num n := by
  unfold interpolate_env_vars
  rw [show configSize (Config.num n) = 0 + 1 by simp [configSize]]
  rfl

theorem interp_config_bool (env : String → Option String) (b : Bool) :
    interpolate_env_vars env (Config.bool b) = Config.bool b := by
  unfold interpolate_env_vars
  rw [show configSize (Config.bool b) = 0 + 1 by simp [configSize]]
  rfl

theorem interp_config_null (env : String → Option String) :
    interpolate_env_vars env Config.null = Config.null := by
  unfold interpolate_env_vars
  rw [show configSize Config.null = 0 + 1 by simp [configSize]]
  rfl

theorem takeWhile_append_stop (p : Char → Bool) (xs : List Char) (stop : Char)
    (ys : List Char) (hx : ∀ c ∈ xs, p c = true) (hs : p stop = false) :
    (xs ++ stop :: ys).takeWhile p = xs ∧ (xs ++ stop :: ys).dropWhile p = stop :: ys := by
  induction xs with
  | nil => simp [List.takeWhile, List.dropWhile, hs]
  | cons a t ih =>
    have ha : p a = true := hx a (List.mem_cons_self a t)
    have iht := ih (fun c hc => hx c (List.mem_cons_of_mem a hc))
    constructor
    · rw [List.cons_append, List.takeWhile_cons_of_pos ha, iht.1]
    · rw [List.cons_append, List.dropWhile_cons_of_pos ha, iht.2]

theorem lazyDefault_append (d rest : List Char)
    (hd : ∀ c ∈ d, c ≠ rbrace ∧ c ≠ '\n') :
    lazyDefault (d ++ rbrace :: rest) = some (d, rest) := by
  induction d with
  | nil => simp [lazyDefault]
  | cons a t ih =>
    have ha := hd a (List.mem_cons_self a t)
    have h1 : (a == rbrace) = false := by simp [ha.1]
    have h2 : (a == '\n') = false := by simp [ha.2]
    rw [List.cons_append]
    simp only [lazyDefault, h1, h2]
    rw [ih (fun c hc => hd c (List.mem_cons_of_mem a hc))]
    rfl

theorem nameChar_of_props {c : Char} (h1 : c ≠ rbrace) (h2 : c ≠ ':') :
    nameChar c = true := by
  simp [nameChar, h1, h2]

theorem tryMatch_placeholder_plain (name rest : List Char) (hne : name ≠ [])
    (hn : ∀ c ∈ name, c ≠ rbrace ∧ c ≠ ':') :
    tryMatch ('$' :: lbrace :: (name ++ rbrace :: rest)) = some (name, none, rest) := by
  have hstop : nameChar rbrace = false := by simp [nameChar]
  have htw := takeWhile_append_stop nameChar name rbrace rest
    (fun c hc => nameChar_of_props (hn c hc).1 (hn c hc).2) hstop
  have hbr : (rbrace == rbrace) = true := by simp
  have hie : name.isEmpty = false := by
    cases name with
    | nil => exact absurd rfl hne
    | cons a t => rfl
  simp only [tryMatch, htw.1, htw.2, hie, hbr]
  simp

theorem tryMatch_placeholder_default (name d rest : List Char) (hne : name ≠ [])
    (hn : ∀ c ∈ name, c ≠ rbrace ∧ c ≠ ':')
    (hd : ∀ c ∈ d, c ≠ rbrace ∧ c ≠ '\n') :
    tryMatch ('$' :: lbrace :: (name ++ ':' :: '-' :: (d ++ rbrace :: rest))) =
      some (name, some d, rest) := by
  have hstop : nameChar ':' = false := by simp [nameChar]
  have htw := takeWhile_append_stop nameChar name ':' ('-' :: (d ++ rbrace :: rest))
    (fun c hc => nameChar_of_props (hn c hc).1 (hn c hc).2) hstop
  have hie : name.isEmpty = false := by
    cases name with
    | nil => exact absurd rfl hne
    | cons a t => rfl
  have hcb : (':' == rbrace) = false := by simp [rbrace]
  have hld := lazyDefault_append d rest hd
  simp only [tryMatch, htw.1, htw.2, hie, hcb, hld]
  simp

theorem tryMatch_none_of_head_ne_dollar {c : Char} (cs : List Char)
    (h : c ≠ '$') : tryMatch (c :: cs) = none := by
  have hb : (c == '$') = false := by simp [h]
  cases cs with
  | nil => rfl
  | cons c1 tl => simp [tryMatch, hb]

theorem interpAux_no_dollar (env : String → Option String) :
    ∀ f l, (∀ c ∈ l, c ≠ '$') → interpAux env f l = l := by
  intro f
  induction f with
  | zero => intro l _; cases l <;> rfl
  | succ f ih =>
    intro l h
    cases l with
    | nil => rfl
    | cons c cs =>
      have hc := h c (List.mem_cons_self c cs)
      simp only [interpAux, tryMatch_none_of_head_ne_dollar cs hc]
      rw [ih cs (fun x hx => h x (List.mem_cons_of_mem c hx))]

theorem interpChars_no_dollar (env : String → Option String) (l : List Char)
    (h : ∀ c ∈ l, c ≠ '$') : interpChars env l = l :=
  interpAux_no_dollar env l.length l h

theorem lazyDefault_none_of_no_rbrace :
    ∀ l : List Char, (∀ c ∈ l, c ≠ rbrace) → lazyDefault l = none := by
  intro l
  induction l with
  | nil => intro _; rfl
  | cons c rest ih =>
    intro h
    have hc : (c == rbrace) = false := by simp [h c (List.mem_cons_self c rest)]
    simp only [lazyDefault, hc]
    by_cases hn : (c == '\n') = true
    · simp [hn]
    · simp only [Bool.not_eq_true] at hn
      simp [hn, ih (fun x hx => h x (List.mem_cons_of_mem c hx))]

theorem tryMatch_none_of_no_rbrace (l : List Char)
    (h : ∀ c ∈ l, c ≠ rbrace) : tryMatch l = none := by
  match l with
  | [] => rfl
  | [c] => rfl
  | c0 :: c1 :: tl =>
    by_cases h01 : (c0 == '$' && c1 == lbrace) = true
    · have htl : ∀ c ∈ tl, c ≠ rbrace :=
        fun c hc => h c (List.mem_cons_of_mem c0 (List.mem_cons_of_mem c1 hc))
      have hsuf : tl.dropWhile nameChar <:+ tl := List.dropWhile_suffix nameChar
      match hr2 : tl.dropWhile nameChar with
      | [] => simp [tryMatch, h01, hr2]
      | c :: rest3 =>
        have hmem : ∀ x ∈ c :: rest3, x ∈ tl := by
          intro x hx
          exact hsuf.subset (hr2 ▸ hx)
        have hcr : (c == rbrace) = false := by
          simp [htl c (hmem c (List.mem_cons_self c rest3))]
        match rest3 with
        | [] => simp [tryMatch, h01, hr2, hcr]
        | c2 :: rest4 =>
          have hld : lazyDefault rest4 = none := by
            refine lazyDefault_none_of_no_rbrace rest4 (fun x hx => ?_)
            exact htl x (hmem x (List.mem_cons_of_mem c (List.mem_cons_of_mem c2 hx)))
          simp [tryMatch, h01, hr2, hcr, hld]
    · simp [tryMatch, h01]

theorem interpAux_no_rbrace (env : String → Option String) :
    ∀ f l, (∀ c ∈ l, c ≠ rbrace) → interpAux env f l = l := by
  intro f
  induction f with
  | zero => intro l _; cases l <;> rfl
  | succ f ih =>
    intro l h
    cases l with
    | nil => rfl
    | cons c cs =>
      simp only [interpAux, tryMatch_none_of_no_rbrace (c :: cs) h]
      rw [ih cs (fun x hx => h x (List.mem_cons_of_mem c hx))]

/-- Strings in which no dollar sign occurs anywhere in the tree; such a tree
is a fixed point of the interpolation pass. -/
inductive NoDollar : Config → Prop where
  | str {s : String} : (∀ c ∈ s.data, c ≠ '$') → NoDollar (Config.str s)
  | arr {xs : List Config} : (∀ x ∈ xs, NoDollar x) → NoDollar (Config.arr xs)
  | obj {kvs : List (String × Config)} :
      (∀ kv ∈ kvs, NoDollar kv.2) → NoDollar (Config.obj kvs)
  | num {n : Int} : NoDollar (Config.num n)
  | bool {b : Bool} : NoDollar (Config.bool b)
  | null : NoDollar Config.null

theorem interp_fix_of_noDollar (env : String → Option String) {c : Config}
    (h : NoDollar c) : interpolate_env_vars env c = c := by
  induction h with
  | str hs =>
    rw [interp_config_str]
    unfold interpolate_string
    rw [interpChars_no_dollar env _ hs]
  | arr hxs ih =>
    rw [interp_config_arr]
    refine congrArg Config.arr ?_
    rw [map_congr_mem (fun x hx => ih x hx)]
    simp
  | @obj kvs hkvs ih =>
    rw [interp_config_obj]
    refine congrArg Config.obj ?_
    have hfix : ∀ kv ∈ kvs,
        (fun kv : String × Config => (kv.1, interpolate_env_vars env kv.2)) kv =
          (fun kv : String × Config => kv) kv := by
      intro kv hkv
      simp only
      rw [ih kv hkv]
    rw [map_congr_mem hfix]
    simp
  | num => exact interp_config_num env _
  | bool => exact interp_config_bool env _
  | null => exact interp_config_null env

/-- A JSON value, as produced by `response.json()`. -/
inductive JsonVal where
  | jnull
  | jbool (b : Bool)
  | jnum (n : Int)
  | jstr (s : String)
  | jarr (xs : List JsonVal)
  | jobj (kvs : List (String × JsonVal))

/-- Python truthiness of a JSON value, as used by `if response["result"]`. -/
def truthy : JsonVal → Bool
  | JsonVal.jnull => false
  | JsonVal.jbool b => b
  | JsonVal.jnum n => decide (n ≠ 0)
  | JsonVal.jstr s => decide (s ≠ "")
  | JsonVal.jarr xs => !xs.isEmpty
  | JsonVal.jobj kvs => !kvs.isEmpty

/-- `needle` is a prefix of `hay` (character lists). -/
def startsWithChars : List Char → List Char → Bool
  | [], _ => true
  | _ :: _, [] => false
  | a :: as, b :: bs => a == b && startsWithChars as bs

/-- `needle` occurs as a contiguous substring of `hay`, Python's `in` on
strings. -/
def containsSub (needle : List Char) : List Char → Bool
  | [] => needle.isEmpty
  | c :: rest => startsWithChars needle (c :: rest) || containsSub needle rest

/-- Python `==` between a JSON value and a string: only equal strings compare
equal (used for list membership). -/
def jsonStrEq : JsonVal → String → Bool
  | JsonVal.jstr s, k => s == k
  | _, _ => false

/-- Python `k in response`: key membership for dicts, element membership for
lists, substring test for strings, and a `TypeError` (modelled as `.error ()`)
for numbers, booleans and `None`. -/
def pyContains (j : JsonVal) (k : String) : Except Unit Bool :=
  match j with
  | JsonVal.jobj kvs => Except.ok ((kvs.find? (fun kv => kv.1 == k)).isSome)
  | JsonVal.jarr xs => Except.ok (xs.any (fun x => jsonStrEq x k))
  | JsonVal.jstr s => Except.ok (containsSub k.data s.data)
  | _ => Except.error ()

/-- Python `response[k]` for a string key: dict lookup (`KeyError` when the
key is absent), `TypeError` for every other shape; both modelled as
`.error ()` since both fall to the final `except Exception` arm. -/
def pySubscript (j : JsonVal) (k : String) : Except Unit JsonVal :=
  match j with
  | JsonVal.jobj kvs =>
    match kvs.find? (fun kv => kv.1 == k) with
    | some kv => Except.ok kv.2
    | none => Except.error ()
  | _ => Except.error ()

/-- The exceptions that the `try` block of `send_coordinates` can raise,
named after their Python classes.  `typeErrorExn` stands for the
`TypeError`/`KeyError` family raised by `in`/subscripting on an unexpected
response shape; `otherExn` for any other unclassified exception. -/
inductive PyExn where
  | timeoutExn
  | httpStatusExn (status : Nat)
  | requestExn
  | valueErrorExn
  | typeErrorExn
  | otherExn

/-- Outcome of one publish attempt, the classification the spec assigns to
the terminal log record of `send_coordinates`. -/
inductive PublishOutcome where
  | success
  | rejectedInvalidInput
  | networkError (isTimeout : Bool)
  | httpError (status : Nat)
  | rpcError (payload : JsonVal)
  | malformedResponse
  | unexpectedError

/-- Behaviour of the outside world for the single `requests.post` call:
the post may raise `Timeout`, another `RequestException`, or a non-requests
exception, or deliver a response with an HTTP status code and a body that
either parses to a JSON value or fails to parse (`.error ()`,
`ValueError`). -/
inductive PostBehavior where
  | timeout
  | requestException
  | otherException
  | response (status : Nat) (body : Except Unit JsonVal)

/-- The classification of the parsed JSON-RPC body performed inside the
`try` block: `"error" in response` is checked first (its payload is read
back for the log record), then `"result" in response and response["result"]`;
a dict with neither is the missing-result failure. -/
def classifyBody (j : JsonVal) : Except PyExn PublishOutcome :=
  match pyContains j ("error") with
  | Except.error _ => Except.error PyExn.typeErrorExn
  | Except.ok true =>
    match pySubscript j ("error") with
    | Except.error _ => Except.error PyExn.typeErrorExn
    | Except.ok payload => Except.ok (PublishOutcome.rpcError payload)
  | Except.ok false =>
    match pyContains j ("result") with
    | Except.error _ => Except.error PyExn.typeErrorExn
    | Except.ok true =>
      match pySubscript j ("result") with
      | Except.error _ => Except.error PyExn.typeErrorExn
      | Except.ok v =>
        Except.ok (if truthy v then PublishOutcome.success
                   else PublishOutcome.malformedResponse)
    | Except.ok false => Except.ok PublishOutcome.malformedResponse

/-- The single JSON-RPC parameter object `latitude / longitude / yaw`. -/
structure StatusParams (V : Type) where
  latitude : V
  longitude : V
  yaw : V
deriving DecidableEq

/-- One outbound HTTP POST as issued by `requests.post` in
`send_coordinates`: target URL, JSON-RPC fields of the body, the
`Content-Type` header and the request timeout. -/
structure PostRequest (V : Type) where
  url : String
  methodName : String
  params : List (StatusParams V)
  rpcId : Nat
  jsonrpc : String
  contentType : String
  timeoutSeconds : Nat
deriving DecidableEq

/-- The request body built by `send_coordinates` for coordinates
`(la, lo, ya)` against `endpoint`. -/
def mkRequest (V : Type) (endpoint : String) (la lo ya : V) : PostRequest V :=
  { url := endpoint
    methodName := "omp2p_shareStatus"
    params := [{ latitude := la, longitude := lo, yaw := ya }]
    rpcId := 1
    jsonrpc := "2.0"
    contentType := "application/json"
    timeoutSeconds := 10 }

/-- The body of the `try` statement of `send_coordinates` once the request
is built: the post either raises or yields a response; `raise_for_status`
raises `HTTPError` exactly for statuses in `[400, 600)`; `response.json()`
raises `ValueError` on a parse failure; then the body is classified. -/
def tryBlock (V : Type) (req : PostRequest V) (world : PostBehavior) :
    Except PyExn PublishOutcome :=
  match world with
  | PostBehavior.timeout => Except.error PyExn.timeoutExn
  | PostBehavior.requestException => Except.error PyExn.requestExn
  | PostBehavior.otherException => Except.error PyExn.otherExn
  | PostBehavior.response status body =>
    if 400 ≤ status ∧ status < 600 then Except.error (PyExn.httpStatusExn status)
    else
      match body with
      | Except.error _ => Except.error PyExn.valueErrorExn
      | Except.ok j => classifyBody j

/-- The `except` chain of `send_coordinates`, in source order: `Timeout`,
`HTTPError`, `RequestException`, `ValueError`, then the catch-all
`Exception`; every arm logs and returns, so every exception becomes an
outcome. -/
def handleExn : PyExn → PublishOutcome
  | PyExn.timeoutExn => PublishOutcome.networkError true
  | PyExn.httpStatusExn s => PublishOutcome.httpError s
  | PyExn.requestExn => PublishOutcome.networkError false
  | PyExn.valueErrorExn => PublishOutcome.malformedResponse
  | PyExn.typeErrorExn => PublishOutcome.unexpectedError
  | PyExn.otherExn => PublishOutcome.unexpectedError

/-- Observable effects of one call to `send_coordinates`: the names passed to
`get_dynamic_variable` in order, the HTTP POSTs issued, and the outcome
classification of the terminal log record / return. -/
structure SendTrace (V : Type) where
  fetched : List String
  posts : List (PostRequest V)
  outcome : PublishOutcome

/-- Embedding of `send_coordinates`.  The runtime state provider
(`IOProvider.get_dynamic_variable`, an external collaborator) is modelled as
the lookup `io : String → Option V`; the network is modelled by the
`world : PostBehavior` argument.  The code fetches `latitude`, `longitude`
and `yaw_deg`, rejects the reading when any of the three is `None` (no post
is issued), and otherwise posts once and classifies the result through the
`try`/`except` structure. -/
def send_coordinates (V : Type) (io : String → Option V) (endpoint : String)
    (world : PostBehavior) : SendTrace V :=
  let latitude := io ("latitude")
  let longitude := io ("longitude")
  let yaw := io ("yaw_deg")
  let fetched : List String := ["latitude", "longitude", "yaw_deg"]
  match latitude, longitude, yaw with
  | some la, some lo, some ya =>
    let req := mkRequest V endpoint la lo ya
    { fetched := fetched
      posts := [req]
      outcome :=
        match tryBlock V req world with
        | Except.ok o => o
        | Except.error e => handleExn e }
  | _, _, _ =>
    { fetched := fetched
      posts := []
      outcome := PublishOutcome.rejectedInvalidInput }

/-- Modelled from the source import of `actions.gps.interface` (a repository
file not present here): the GPS action enum with its `SHARE_LOCATION` member;
all other members are represented by a tag. -/
inductive GPSAction where
  | shareLocation
  | otherAction (tag : Nat)
deriving DecidableEq

/-- Observable effects of one call to `connect`: `outcome` is `none` when no
send was attempted. -/
structure ConnectTrace (V : Type) where
  fetched : List String
  posts : List (PostRequest V)
  outcome : Option PublishOutcome

/-- Embedding of `GPSFabricConnector.connect`: sends the coordinates exactly
when the received action is `SHARE_LOCATION`, otherwise only logs. -/
def connect (V : Type) (action : GPSAction) (io : String → Option V)
    (endpoint : String) (world : PostBehavior) : ConnectTrace V :=
  if action = GPSAction.shareLocation then
    let t := send_coordinates V io endpoint world
    { fetched := t.fetched, posts := t.posts, outcome := some t.outcome }
  else
    { fetched := [], posts := [], outcome := none }

theorem send_coordinates_valid (V : Type) (io : String → Option V) (ep : String)
    (la lo ya : V) (hla : io ("latitude") = some la)
    (hlo : io ("longitude") = some lo) (hya : io ("yaw_deg") = some ya)
    (world : PostBehavior) :
    send_coordinates V io ep world =
      { fetched := ["latitude", "longitude", "yaw_deg"]
        posts := [mkRequest V ep la lo ya]
        outcome :=
          match tryBlock V (mkRequest V ep la lo ya) world with
          | Except.ok o => o
          | Except.error e => handleExn e } := by
  unfold send_coordinates
  rw [hla, hlo, hya]

theorem send_coordinates_invalid (V : Type) (io : String → Option V) (ep : String)
    (world : PostBehavior)
    (h : io ("latitude") = none ∨ io ("longitude") = none ∨ io ("yaw_deg") = none) :
    send_coordinates V io ep world =
      { fetched := ["latitude", "longitude", "yaw_deg"]
        posts := []
        outcome := PublishOutcome.rejectedInvalidInput } := by
  unfold send_coordinates
  rcases h with h | h | h
  · rw [h]
  · rw [h]
    cases io ("latitude") <;> rfl
  · rw [h]
    cases io ("latitude") <;> cases io ("longitude") <;> rfl

theorem send_coordinates_outcome (V : Type) (io : String → Option V) (ep : String)
    (la lo ya : V) (hla : io ("latitude") = some la)
    (hlo : io ("longitude") = some lo) (hya : io ("yaw_deg") = some ya)
    (world : PostBehavior) :
    (send_coordinates V io ep world).outcome =
      match tryBlock V (mkRequest V ep la lo ya) world with
      | Except.ok o => o
      | Except.error e => handleExn e := by
  rw [send_coordinates_valid V io ep la lo ya hla hlo hya world]

theorem send_coordinates_fetched (V : Type) (io : String → Option V) (ep : String)
    (world : PostBehavior) :
    (send_coordinates V io ep world).fetched = ["latitude", "longitude", "yaw_deg"] := by
  unfold send_coordinates
  cases io ("latitude") <;> cases io ("longitude") <;> cases io ("yaw_deg") <;> rfl

/-- Lookup used by several concrete test inputs: all three coordinate
variables present. -/
def ioAll : String → Option Int :=
  fun n =>
    if n = "latitude" then some 1
    else if n = "longitude" then some 2
    else if n = "yaw_deg" then some 3
    else none

/-- Claim C1: every non-overlapping placeholder, in either form, is replaced
independently by the resolution order of `_interpolate_string`: a set
environment variable wins (even when set to the empty string), else a given
default is used (even an explicit empty one), else the placeholder text is
left unchanged; the rest of the string is interpolated independently. -/
theorem c1_placeholder_resolution (env : String → Option String)
    (name d rest : List Char) (hne : name ≠ [])
    (hn : ∀ c ∈ name, c ≠ rbrace ∧ c ≠ ':')
    (hd : ∀ c ∈ d, c ≠ rbrace ∧ c ≠ '\n') :
    interpChars env ('$' :: lbrace :: (name ++ rbrace :: rest)) =
      (match env (String.mk name) with
       | some v => v.data
       | none => '$' :: lbrace :: (name ++ [rbrace])) ++ interpChars env rest
    ∧ interpChars env ('$' :: lbrace :: (name ++ ':' :: '-' :: (d ++ rbrace :: rest))) =
      (match env (String.mk name) with
       | some v => v.data
       | none => d) ++ interpChars env rest := by
  constructor
  · rw [interpChars_cons_match env (tryMatch_placeholder_plain name rest hne hn)]
    cases henv : env (String.mk name) <;> simp [resolvePH, henv]
  · rw [interpChars_cons_match env (tryMatch_placeholder_default name d rest hne hn hd)]
    cases henv : env (String.mk name) <;> simp [resolvePH, henv]

/-- Witness for C1: `$\x7bX\x7d` with `X` set to the empty string becomes the
empty string, and `$\x7bX:-\x7d` with `X` unset becomes the empty string. -/
theorem c1_placeholder_resolution_w :
    interpChars (fun n => if n = "X" then some "" else none)
      ('$' :: lbrace :: (['X'] ++ rbrace :: [])) = []
    ∧ interpChars (fun _ => none)
      ('$' :: lbrace :: (['X'] ++ ':' :: '-' :: (([] : List Char) ++ rbrace :: []))) = [] := by
  constructor
  · have h := (c1_placeholder_resolution (fun n => if n = "X" then some "" else none)
      ['X'] [] [] (by decide) (by decide) (by decide)).1
    rw [h]
    decide
  · have h := (c1_placeholder_resolution (fun _ => none)
      ['X'] [] [] (by decide) (by decide) (by decide)).2
    rw [h]
    decide

/-- Claim C7 counterexample: the nested input `$\x7bA$\x7bB:-d\x7d\x7d` IS
matched by the pattern (the name group absorbs `A$\x7bB`), and with no
variables set it is rewritten to `d\x7d` rather than left as literal text. -/
theorem c7_counterexample :
    interpChars (fun _ => none)
      ('$' :: lbrace :: 'A' :: '$' :: lbrace :: 'B' :: ':' :: '-' :: 'd' :: rbrace :: rbrace :: [])
      = 'd' :: rbrace :: []
    ∧ 'd' :: rbrace :: [] ≠
      '$' :: lbrace :: 'A' :: '$' :: lbrace :: 'B' :: ':' :: '-' :: 'd' :: rbrace :: rbrace :: [] := by
  exact ⟨by decide, by decide⟩

/-- Claim C7 (amended): a string containing no closing brace (in particular
an unclosed placeholder such as `$\x7bX`) is never matched and is returned
verbatim; a placeholder with nested braces can however be matched, its name
group absorbing the inner `$\x7b`, and is left unchanged only when that
compound name is unset and no default is given, as for `$\x7bA$\x7bB\x7d\x7d`
with the environment empty. -/
theorem c7_malformed_amended :
    (∀ (env : String → Option String) (cs : List Char),
      (∀ c ∈ cs, c ≠ rbrace) → interpChars env cs = cs)
    ∧ interpChars (fun _ => none)
        ('$' :: lbrace :: 'A' :: '$' :: lbrace :: 'B' :: rbrace :: rbrace :: [])
      = '$' :: lbrace :: 'A' :: '$' :: lbrace :: 'B' :: rbrace :: rbrace :: []
    ∧ interpChars (fun n => if n = "A$\x7bB" then some "Z" else none)
        ('$' :: lbrace :: 'A' :: '$' :: lbrace :: 'B' :: rbrace :: rbrace :: [])
      = 'Z' :: rbrace :: [] := by
  refine ⟨fun env cs h => interpAux_no_rbrace env cs.length cs h, by decide, by decide⟩

/-- Witness for C7 (amended): the unclosed placeholder `$\x7bX` is returned
verbatim. -/
theorem c7_malformed_amended_w :
    interpChars (fun _ => none) ('$' :: lbrace :: 'X' :: []) =
      '$' :: lbrace :: 'X' :: [] :=
  c7_malformed_amended.1 (fun _ => none) ('$' :: lbrace :: 'X' :: []) (by decide)

/-- Claim C8: `interpolate_env_vars` maps sequences element-wise preserving
order and length, interpolates mapping values recursively while keys are
untouched and the key list is preserved, and returns numbers, booleans and
null unchanged. -/
theorem c8_traversal (env : String → Option String) :
    (∀ xs : List Config,
      interpolate_env_vars env (Config.arr xs) =
        Config.arr (xs.map (interpolate_env_vars env))
      ∧ (xs.map (interpolate_env_vars env)).length = xs.length)
    ∧ (∀ kvs : List (String × Config),
      interpolate_env_vars env (Config.obj kvs) =
        Config.obj (kvs.map (fun kv => (kv.1, interpolate_env_vars env kv.2)))
      ∧ (kvs.map (fun kv => (kv.1, interpolate_env_vars env kv.2))).map Prod.fst =
        kvs.map Prod.fst)
    ∧ (∀ n : Int, interpolate_env_vars env (Config.num n) = Config.num n)
    ∧ (∀ b : Bool, interpolate_env_vars env (Config.bool b) = Config.bool b)
    ∧ interpolate_env_vars env Config.null = Config.null := by
  refine ⟨fun xs => ⟨interp_config_arr env xs, List.length_map xs _⟩,
          fun kvs => ⟨interp_config_obj env kvs, ?_⟩,
          fun n => interp_config_num env n,
          fun b => interp_config_bool env b,
          interp_config_null env⟩
  rw [List.map_map]
  rfl

/-- Environment for the C9 counterexample: `X` expands to a string that is
itself a placeholder for `Y`; both variables are defined. -/
def envXY : String → Option String :=
  fun n =>
    if n = "X" then some "$\x7bY\x7d"
    else if n = "Y" then some "z"
    else none

/-- Claim C9 counterexample: with every referenced variable defined
(`X` and `Y`), one pass over `$\x7bX\x7d` yields `$\x7bY\x7d` and a second
pass yields `z`, so interpolation is not idempotent as claimed. -/
theorem c9_counterexample :
    envXY "X" = some "$\x7bY\x7d"
    ∧ envXY "Y" = some "z"
    ∧ interpolate_env_vars envXY (interpolate_env_vars envXY (Config.str "$\x7bX\x7d")) ≠
      interpolate_env_vars envXY (Config.str "$\x7bX\x7d") := by
  refine ⟨by decide, by decide, ?_⟩
  have h1 : interpolate_env_vars envXY (Config.str "$\x7bX\x7d") =
      Config.str "$\x7bY\x7d" := by
    rw [interp_config_str]
    exact congrArg Config.str (by decide)
  have h2 : interpolate_env_vars envXY (Config.str "$\x7bY\x7d") =
      Config.str "z" := by
    rw [interp_config_str]
    exact congrArg Config.str (by decide)
  rw [h1, h2]
  intro h
  injection h with h'
  exact absurd h' (by decide)

/-- Claim C9 (amended): `interpolate_env_vars` is a total function (it cannot
raise), and it is idempotent on every tree whose one-pass image contains no
dollar character in any string — definedness of the referenced variables
alone does not suffice, because substituted values can introduce new
placeholders. -/
theorem c9_idempotent_amended (env : String → Option String) (c : Config)
    (h : NoDollar (interpolate_env_vars env c)) :
    interpolate_env_vars env (interpolate_env_vars env c) =
      interpolate_env_vars env c :=
  interp_fix_of_noDollar env h

/-- Witness for C9 (amended): a plain string is a fixed point. -/
theorem c9_idempotent_amended_w :
    interpolate_env_vars (fun _ => none)
        (interpolate_env_vars (fun _ => none) (Config.str "hi")) =
      interpolate_env_vars (fun _ => none) (Config.str "hi") := by
  refine c9_idempotent_amended (fun _ => none) (Config.str "hi") ?_
  have he : interpolate_env_vars (fun _ => none) (Config.str "hi") =
      Config.str "hi" := by
    rw [interp_config_str]
    exact congrArg Config.str (by decide)
  rw [he]
  exact NoDollar.str (by decide)

/-- Claim C2 counterexample: `raise_for_status` raises only for statuses in
[400, 600), so a 304 response with body `(result := true)` is classified
`success`, not `httpError`, although 304 is not a 2xx status; and a parsed
non-object body such as the number 5 makes the `in` test raise `TypeError`,
which the catch-all arm turns into `unexpectedError`, not
`malformedResponse`. -/
theorem c2_counterexample :
    (send_coordinates Int ioAll ("e") (PostBehavior.response 304
        (Except.ok (JsonVal.jobj [("result", JsonVal.jbool true)])))).outcome
      = PublishOutcome.success
    ∧ PublishOutcome.success ≠ PublishOutcome.httpError 304
    ∧ (send_coordinates Int ioAll ("e") (PostBehavior.response 200
        (Except.ok (JsonVal.jnum 5)))).outcome = PublishOutcome.unexpectedError
    ∧ PublishOutcome.unexpectedError ≠ PublishOutcome.malformedResponse := by
  refine ⟨rfl, ?_, rfl, ?_⟩
  · intro h
    exact PublishOutcome.noConfusion h
  · intro h
    exact PublishOutcome.noConfusion h

/-- Claim C2 (amended): with a valid reading, the response to the single POST
is classified in this order: a status in [400, 600) yields `httpError`
carrying the status (any other status — including non-2xx ones such as 304 —
proceeds to the body); a body that fails to parse yields
`malformedResponse`; a parsed object body with an `error` key yields
`rpcError` with that payload, checked before `result`; an object body whose
`result` value is truthy yields `success`; and an object body with no
`error` key and no truthy `result` yields `malformedResponse`. -/
theorem c2_classification_amended (V : Type) (io : String → Option V)
    (ep : String) (la lo ya : V) (hla : io ("latitude") = some la)
    (hlo : io ("longitude") = some lo) (hya : io ("yaw_deg") = some ya) :
    (∀ status body, 400 ≤ status → status < 600 →
      (send_coordinates V io ep (PostBehavior.response status body)).outcome =
        PublishOutcome.httpError status)
    ∧ (∀ status, ¬(400 ≤ status ∧ status < 600) →
      (send_coordinates V io ep
          (PostBehavior.response status (Except.error ()))).outcome =
        PublishOutcome.malformedResponse)
    ∧ (∀ status kvs kv, ¬(400 ≤ status ∧ status < 600) →
      kvs.find? (fun p => p.1 == "error") = some kv →
      (send_coordinates V io ep (PostBehavior.response status
          (Except.ok (JsonVal.jobj kvs)))).outcome = PublishOutcome.rpcError kv.2)
    ∧ (∀ status kvs kv, ¬(400 ≤ status ∧ status < 600) →
      kvs.find? (fun p => p.1 == "error") = none →
      kvs.find? (fun p => p.1 == "result") = some kv → truthy kv.2 = true →
      (send_coordinates V io ep (PostBehavior.response status
          (Except.ok (JsonVal.jobj kvs)))).outcome = PublishOutcome.success)
    ∧ (∀ status kvs kv, ¬(400 ≤ status ∧ status < 600) →
      kvs.find? (fun p => p.1 == "error") = none →
      kvs.find? (fun p => p.1 == "result") = some kv → truthy kv.2 = false →
      (send_coordinates V io ep (PostBehavior.response status
          (Except.ok (JsonVal.jobj kvs)))).outcome = PublishOutcome.malformedResponse)
    ∧ (∀ status kvs, ¬(400 ≤ status ∧ status < 600) →
      kvs.find? (fun p => p.1 == "error") = none →
      kvs.find? (fun p => p.1 == "result") = none →
      (send_coordinates V io ep (PostBehavior.response status
          (Except.ok (JsonVal.jobj kvs)))).outcome = PublishOutcome.malformedResponse) := by
  refine ⟨?_, ?_, ?_, ?_, ?_, ?_⟩
  · intro status body h1 h2
    rw [send_coordinates_outcome V io ep la lo ya hla hlo hya]
    simp [tryBlock, handleExn, h1, h2]
  · intro status hns
    rw [send_coordinates_outcome V io ep la lo ya hla hlo hya]
    simp [tryBlock, handleExn, hns]
  · intro status kvs kv hns hfind
    rw [send_coordinates_outcome V io ep la lo ya hla hlo hya]
    simp [tryBlock, hns, classifyBody, pyContains, pySubscript, hfind]
  · intro status kvs kv hns hfe hfr htr
    rw [send_coordinates_outcome V io ep la lo ya hla hlo hya]
    simp [tryBlock, hns, classifyBody, pyContains, pySubscript, hfe, hfr, htr]
  · intro status kvs kv hns hfe hfr htr
    rw [send_coordinates_outcome V io ep la lo ya hla hlo hya]
    simp [tryBlock, hns, classifyBody, pyContains, pySubscript, hfe, hfr, htr]
  · intro status kvs hns hfe hfr
    rw [send_coordinates_outcome V io ep la lo ya hla hlo hya]
    simp [tryBlock, hns, classifyBody, pyContains, pySubscript, hfe, hfr]

/-- Witness for C2 (amended): the four response examples of the spec,
against a valid reading. -/
theorem c2_classification_amended_w :
    (send_coordinates Int ioAll ("e")
        (PostBehavior.response 500 (Except.error ()))).outcome =
      PublishOutcome.httpError 500
    ∧ (send_coordinates Int ioAll ("e") (PostBehavior.response 200
        (Except.ok (JsonVal.jobj [("error", JsonVal.jnum 1)])))).outcome =
      PublishOutcome.rpcError (JsonVal.jnum 1)
    ∧ (send_coordinates Int ioAll ("e") (PostBehavior.response 200
        (Except.ok (JsonVal.jobj [("result", JsonVal.jbool true)])))).outcome =
      PublishOutcome.success
    ∧ (send_coordinates Int ioAll ("e") (PostBehavior.response 200
        (Except.ok (JsonVal.jobj [])))).outcome =
      PublishOutcome.malformedResponse := by
  have h := c2_classification_amended Int ioAll "e" 1 2 3 (by decide) (by decide) (by decide)
  refine ⟨h.1 500 (Except.error ()) (by omega) (by omega), ?_, ?_, ?_⟩
  · exact h.2.2.1 200 [("error", JsonVal.jnum 1)] ("error", JsonVal.jnum 1)
      (by omega) rfl
  · exact h.2.2.2.1 200 [("result", JsonVal.jbool true)] ("result", JsonVal.jbool true)
      (by omega) rfl rfl rfl
  · exact h.2.2.2.2.2 200 [] (by omega) rfl rfl

/-- Claim C3: when any of the three fetched values is null the outcome is
`rejectedInvalidInput`, no POST is issued, and the call terminates there. -/
theorem c3_reject_null (V : Type) (io : String → Option V) (ep : String)
    (world : PostBehavior)
    (h : io ("latitude") = none ∨ io ("longitude") = none ∨ io ("yaw_deg") = none) :
    (send_coordinates V io ep world).outcome = PublishOutcome.rejectedInvalidInput
    ∧ (send_coordinates V io ep world).posts = [] := by
  rw [send_coordinates_invalid V io ep world h]
  exact ⟨rfl, rfl⟩

/-- Lookup for the C3 witness: latitude is absent, the other two present. -/
def ioNoLat : String → Option Int :=
  fun n =>
    if n = "longitude" then some 1
    else if n = "yaw_deg" then some 2
    else none

/-- Witness for C3: latitude `None`, longitude and yaw present. -/
theorem c3_reject_null_w :
    (send_coordinates Int ioNoLat ("e") PostBehavior.timeout).outcome =
      PublishOutcome.rejectedInvalidInput
    ∧ (send_coordinates Int ioNoLat ("e") PostBehavior.timeout).posts = [] :=
  c3_reject_null Int ioNoLat "e" PostBehavior.timeout (Or.inl (by decide))

/-- Claim C4: every failure of the HTTP call is caught inside
`send_coordinates` and converted into a returned outcome — a timeout maps to
the timeout flavour of `networkError`, and every exception the try block can
raise is mapped through the except chain, so no exception escapes the
operation. -/
theorem c4_no_escape (V : Type) (io : String → Option V) (ep : String)
    (la lo ya : V) (hla : io ("latitude") = some la)
    (hlo : io ("longitude") = some lo) (hya : io ("yaw_deg") = some ya) :
    (send_coordinates V io ep PostBehavior.timeout).outcome =
      PublishOutcome.networkError true
    ∧ (∀ world e, tryBlock V (mkRequest V ep la lo ya) world = Except.error e →
        (send_coordinates V io ep world).outcome = handleExn e) := by
  constructor
  · rw [send_coordinates_outcome V io ep la lo ya hla hlo hya]
    rfl
  · intro world e he
    rw [send_coordinates_outcome V io ep la lo ya hla hlo hya, he]

/-- Witness for C4: the timeout and connection-failure behaviours. -/
theorem c4_no_escape_w :
    (send_coordinates Int ioAll ("e") PostBehavior.timeout).outcome =
      PublishOutcome.networkError true
    ∧ (send_coordinates Int ioAll ("e") PostBehavior.requestException).outcome =
      handleExn PyExn.requestExn := by
  have h := c4_no_escape Int ioAll "e" 1 2 3 (by decide) (by decide) (by decide)
  exact ⟨h.1, h.2 PostBehavior.requestException PyExn.requestExn rfl⟩

/-- Claim C5: with all three values present, exactly one POST is issued, to
the configured endpoint, with the JSON content type, the 10-unit timeout and
the exact JSON-RPC body fields of the source. -/
theorem c5_request_shape (V : Type) (io : String → Option V) (ep : String)
    (la lo ya : V) (world : PostBehavior) (hla : io ("latitude") = some la)
    (hlo : io ("longitude") = some lo) (hya : io ("yaw_deg") = some ya) :
    (send_coordinates V io ep world).posts =
      [{ url := ep
         methodName := "omp2p_shareStatus"
         params := [{ latitude := la, longitude := lo, yaw := ya }]
         rpcId := 1
         jsonrpc := "2.0"
         contentType := "application/json"
         timeoutSeconds := 10 }] := by
  rw [send_coordinates_valid V io ep la lo ya hla hlo hya world]
  rfl

/-- Witness for C5 at a concrete reading. -/
theorem c5_request_shape_w :
    (send_coordinates Int ioAll ("e") PostBehavior.timeout).posts =
      [{ url := "e"
         methodName := "omp2p_shareStatus"
         params := [{ latitude := 1, longitude := 2, yaw := 3 }]
         rpcId := 1
         jsonrpc := "2.0"
         contentType := "application/json"
         timeoutSeconds := 10 }] :=
  c5_request_shape Int ioAll "e" 1 2 3 PostBehavior.timeout
    (by decide) (by decide) (by decide)

/-- Lookup for the C6 counterexample: `latitude`, `longitude` and `yaw` (but
not `yaw_deg`) are all present. -/
def ioYawOnly : String → Option Int :=
  fun n =>
    if n = "latitude" then some 1
    else if n = "longitude" then some 2
    else if n = "yaw" then some 3
    else none

/-- Claim C6 counterexample: the third fetched variable is `yaw_deg`, not
`yaw`; with `latitude`, `longitude` and `yaw` all set but `yaw_deg` absent
the reading is rejected, showing the claimed name list is wrong. -/
theorem c6_counterexample :
    (send_coordinates Int ioYawOnly ("e") PostBehavior.timeout).fetched ≠
      ["latitude", "longitude", "yaw"]
    ∧ (send_coordinates Int ioYawOnly ("e") PostBehavior.timeout).fetched =
      ["latitude", "longitude", "yaw_deg"]
    ∧ ioYawOnly "yaw" = some 3
    ∧ (send_coordinates Int ioYawOnly ("e") PostBehavior.timeout).outcome =
      PublishOutcome.rejectedInvalidInput := by
  exact ⟨by decide, rfl, by decide, rfl⟩

/-- Claim C6 (amended): every invocation fetches exactly the three dynamic
variables `latitude`, `longitude` and `yaw_deg`, in that order, and the whole
behaviour of the call depends on the runtime state provider only through
those three names. -/
theorem c6_fetch_names_amended (V : Type) (io io' : String → Option V)
    (ep : String) (world : PostBehavior)
    (h : ∀ n ∈ (["latitude", "longitude", "yaw_deg"] : List String), io n = io' n) :
    (send_coordinates V io ep world).fetched = ["latitude", "longitude", "yaw_deg"]
    ∧ send_coordinates V io ep world = send_coordinates V io' ep world := by
  refine ⟨send_coordinates_fetched V io ep world, ?_⟩
  have h1 := h "latitude" (by simp)
  have h2 := h "longitude" (by simp)
  have h3 := h "yaw_deg" (by simp)
  unfold send_coordinates
  rw [h1, h2, h3]

/-- Witness for C6 (amended): a lookup differing only at an unrelated name
produces the identical trace. -/
theorem c6_fetch_names_amended_w :
    (send_coordinates Int ioAll ("e") PostBehavior.timeout).fetched =
      ["latitude", "longitude", "yaw_deg"]
    ∧ send_coordinates Int ioAll ("e") PostBehavior.timeout =
      send_coordinates Int (fun n => if n = "unrelated" then some 7 else ioAll n)
        ("e") PostBehavior.timeout :=
  c6_fetch_names_amended Int ioAll
    (fun n => if n = "unrelated" then some 7 else ioAll n)
    "e" PostBehavior.timeout (by decide)

/-- Lookup with no variables present, for the C10 counterexample. -/
def ioNone : String → Option Int := fun _ => none

/-- Claim C10 counterexample: with action `SHARE_LOCATION` but a provider
returning null coordinates, the fetch happens yet NO network request is
issued, refuting the claimed "request occurs if and only if the action is
SHARE_LOCATION". -/
theorem c10_counterexample :
    (connect Int GPSAction.shareLocation ioNone ("e") PostBehavior.timeout).posts = []
    ∧ (connect Int GPSAction.shareLocation ioNone ("e") PostBehavior.timeout).fetched ≠
      [] := by
  exact ⟨rfl, by decide⟩

/-- Claim C10 (amended): the coordinate fetch occurs exactly when the action
is `SHARE_LOCATION`; a network request occurs only then, and additionally
requires all three fetched values to be non-null; for any other action the
call fetches nothing, posts nothing, and its result does not depend on the
provider or the network at all. -/
theorem c10_connect_amended (V : Type) (a : GPSAction) (io : String → Option V)
    (ep : String) (world : PostBehavior) :
    ((connect V a io ep world).fetched ≠ [] ↔ a = GPSAction.shareLocation)
    ∧ ((connect V a io ep world).posts ≠ [] → a = GPSAction.shareLocation)
    ∧ (a ≠ GPSAction.shareLocation →
        (connect V a io ep world).posts = []
        ∧ (connect V a io ep world).fetched = []
        ∧ (∀ (io' : String → Option V) (world' : PostBehavior),
            connect V a io ep world = connect V a io' ep world'))
    ∧ (∀ la lo ya, a = GPSAction.shareLocation → io ("latitude") = some la →
        io ("longitude") = some lo → io ("yaw_deg") = some ya →
        (connect V a io ep world).posts ≠ []) := by
  by_cases ha : a = GPSAction.shareLocation
  · subst ha
    have hf : (connect V GPSAction.shareLocation io ep world).fetched =
        ["latitude", "longitude", "yaw_deg"] := by
      unfold connect
      rw [if_pos rfl]
      exact send_coordinates_fetched V io ep world
    refine ⟨⟨fun _ => rfl, fun _ => ?_⟩, fun _ => rfl, fun hn => absurd rfl hn, ?_⟩
    · rw [hf]
      decide
    · intro la lo ya _ hla hlo hya
      have hp : (connect V GPSAction.shareLocation io ep world).posts =
          [mkRequest V ep la lo ya] := by
        unfold connect
        rw [if_pos rfl]
        show (send_coordinates V io ep world).posts = _
        rw [send_coordinates_valid V io ep la lo ya hla hlo hya world]
      rw [hp]
      simp
  · have hc : connect V a io ep world =
        { fetched := [], posts := [], outcome := none } := by
      unfold connect
      rw [if_neg ha]
    refine ⟨⟨fun hne => ?_, fun hs => absurd hs ha⟩, fun hp => ?_,
            fun _ => ⟨?_, ?_, ?_⟩, ?_⟩
    · rw [hc] at hne
      simp at hne
    · rw [hc] at hp
      simp at hp
    · rw [hc]
    · rw [hc]
    · intro io' world'
      rw [hc]
      unfold connect
      rw [if_neg ha]
    · intro la lo ya hs
      exact absurd hs ha

/-- Witness for C10 (amended): with `SHARE_LOCATION` and a complete reading a
request is issued; with another action nothing is fetched or posted. -/
theorem c10_connect_amended_w :
    (connect Int GPSAction.shareLocation ioAll ("e") PostBehavior.timeout).posts ≠ []
    ∧ (connect Int (GPSAction.otherAction 0) ioAll ("e") PostBehavior.timeout).fetched
      = [] := by
  constructor
  · exact (c10_connect_amended Int GPSAction.shareLocation ioAll "e"
      PostBehavior.timeout).2.2.2 1 2 3 rfl (by decide) (by decide) (by decide)
  · exact ((c10_connect_amended Int (GPSAction.otherAction 0) ioAll "e"
      PostBehavior.timeout).2.2.1 (by decide)).2.1
